import Mathlib

/-!
Shallow embedding of the go-csp-engine Content-Security-Policy engine
(package `csp`): the source-directive matcher (`source.go`), the policy
resolver (`policy.go`, given here as `src/unnamed/part_002`), the always-allow
directive (`directive.go`) and the per-element evaluation steps of
`ValidatePage` (`html.go` / the mixed-content-aware variant bundled in
`src/csp_test.go`).

Modelling conventions, used throughout:
* Go `string` is Lean `String`; Go `[]byte` bodies are the `String` whose
  bytes they are (bodies are only ever fed to a digest function).
* Go maps used as sets (`Nonces`, `Schemes`) are `List String` with
  membership lookup; only `true` is ever stored in those maps, so a lookup
  equals list membership, and `len(m) == 0` equals `List.isEmpty`.
* Go's `(value, error)` returns become `Except String` where an error is
  reachable and plain values where it is not.  `HashSource.Check` can only
  fail if writing to an in-memory hash fails, which cannot happen, so it is
  modelled as a `Bool`.
* The cryptographic digest (base64-standard of SHA-256/384/512 of the body)
  is a parameter `digest : HashAlg → String → String` of every function that
  consumes it.  No claim settled here depends on a concrete digest value:
  theorems about hash behaviour quantify over `digest`, and concrete
  evaluations only use directives whose hash list is empty or hypotheses
  stating that no hash matches.
-/

deriving instance DecidableEq for Except

/-- `url.URL` restricted to the fields the engine reads: `Scheme`, `Host`,
`Path`, `RawQuery`, `Fragment` (no `Opaque`, `User`, `ForceQuery`, which are
never set by the engine's inputs). -/
structure URL where
  scheme : String := ""
  host : String := ""
  path : String := ""
  query : String := ""
  fragment : String := ""
deriving DecidableEq, Repr

/-- `SourceContext` from `source.go`: the candidate reference being
evaluated. -/
structure SourceContext where
  url : URL := {}
  page : URL := {}
  unsafeInline : Bool := false
  unsafeEval : Bool := false
  nonce : String := ""
  body : String := ""
deriving DecidableEq, Repr

/-- The three digest algorithms `ParseSource` recognises. -/
inductive HashAlg where
  | sha256 : HashAlg
  | sha384 : HashAlg
  | sha512 : HashAlg
deriving DecidableEq, Repr

/-- `HashSource` from `source.go`: algorithm plus expected base64 digest. -/
structure HashSource where
  alg : HashAlg
  value : String
deriving DecidableEq, Repr

/-- One element of a compiled `gobwas/glob` pattern as this engine produces
them: after `sanitizeGlob` (and the fixed pattern `*://*`), a pattern is a
sequence of literal characters and `*` wildcards — no `?`, ranges or
alternates survive quoting, so only these two constructors are needed. -/
inductive GlobPart where
  | star : GlobPart
  | lit : Char → GlobPart
deriving DecidableEq, Repr

/-- A compiled glob: `glob.Glob` compiled with separator `/`. -/
def Glob : Type := List GlobPart
deriving instance DecidableEq, Repr for Glob

/-- Whether a glob pattern matches the empty string: only wildcards left. -/
def globNullable : List GlobPart → Bool
  | [] => true
  | .star :: ps => globNullable ps
  | .lit _ :: _ => false

/-- One character step of glob matching: `f q` stands for "the rest of the
pattern `q` matches the remaining characters after consuming `x`".  A literal
consumes the character on equality; a `*` either yields to the rest of the
pattern on the unconsumed input or consumes the non-separator character and
stays. -/
def globStepAux (x : Char) (f : List GlobPart → Bool) : List GlobPart → Bool
  | [] => false
  | .lit c :: ps => c == x && f ps
  | .star :: ps => globStepAux x f ps || (!(x == '/') && f (.star :: ps))

/-- `gobwas/glob` matching with separator `'/'`: a `*` matches any run of
characters that does not contain the separator.  (Structured as a recursion
on the character list so that concrete matches evaluate inside the kernel;
`globMatch (.lit c :: ps) (x :: xs) = (c == x && globMatch ps xs)` and
`globMatch (.star :: ps) (x :: xs) =
(globMatch ps (x :: xs) || (!(x == '/') && globMatch (.star :: ps) xs))`
hold definitionally, see the equation lemmas below.) -/
def globMatch (ps : List GlobPart) (cs : List Char) : Bool :=
  match cs with
  | [] => globNullable ps
  | x :: xs => globStepAux x (fun q => globMatch q xs) ps

/-- Pattern compilation for the patterns this engine generates: a backslash
escapes the next character, `*` is a wildcard, everything else is literal.
(`glob.Compile` can fail on malformed range/term syntax, but no output of
`sanitizeGlob`, nor `*://` prefixed to one, nor the fixed `*://*`, contains
an unescaped `?`, `[` or `{`, so compilation never fails here.) -/
def globCompileAux : List Char → List GlobPart
  | [] => []
  | '\\' :: c :: rest => .lit c :: globCompileAux rest
  | '*' :: rest => .star :: globCompileAux rest
  | c :: rest => .lit c :: globCompileAux rest

/-- Compile a glob pattern string (separator `/`). -/
def globCompile (pattern : String) : Glob := globCompileAux pattern.data

/-- `strings.HasPrefix`.  (A structural model of `String.startsWith`, used so
that concrete directives evaluate inside the kernel.) -/
def strHasPrefix (s pre : String) : Bool := pre.data.isPrefixOf s.data

/-- `strings.HasSuffix`. -/
def strHasSuffix (s suf : String) : Bool := suf.data.isSuffixOf s.data

/-- Splitting a character list at every position where `p` holds, keeping
empty segments — the list-level core of `strings.Split` with a one-character
separator and of `strings.Fields`. -/
def splitPredChar (p : Char → Bool) : List Char → List (List Char)
  | [] => [[]]
  | x :: xs =>
    match splitPredChar p xs with
    | [] => [[]]
    | y :: ys => if p x then [] :: y :: ys else (x :: y) :: ys

/-- `strings.Split s (String.singleton c)`. -/
def splitOnChar (s : String) (c : Char) : List String :=
  (splitPredChar (fun x => x == c) s.data).map String.mk

/-- `strings.Fields`: split on whitespace, dropping empty fields. -/
def fieldsOf (s : String) : List String :=
  ((splitPredChar Char.isWhitespace s.data).map String.mk).filter (fun f => f ≠ "")

/-- Split at the first occurrence of `sep`, returning the pieces before and
after it, or nothing when `sep` does not occur. -/
def splitOnFirst (sep : List Char) : List Char → Option (List Char × List Char)
  | [] => Option.none
  | x :: xs =>
    if sep.isPrefixOf (x :: xs) then some ([], (x :: xs).drop sep.length)
    else
      match splitOnFirst sep xs with
      | some (a, b) => some (x :: a, b)
      | Option.none => Option.none

/-- `strings.ToLower`, per character (ASCII-faithful). -/
def toLowerStr (s : String) : String := String.mk (s.data.map Char.toLower)

/-- The metacharacters `glob.QuoteMeta` escapes. -/
def globSpecials : List Char := ['*', '?', '\\', '[', ']', Char.ofNat 123, Char.ofNat 125]

/-- `glob.QuoteMeta`: backslash-escape every glob metacharacter. -/
def quoteMeta (s : String) : String :=
  String.mk (s.data.foldr (fun c acc => if globSpecials.contains c then '\\' :: c :: acc else c :: acc) [])

/-- `sanitizeGlob` from `source.go`: quote the literal segments between `*`
wildcards so metacharacters in them match literally. -/
def sanitizeGlob (pattern : String) : String :=
  String.intercalate "*" ((splitOnChar pattern '*').map quoteMeta)

/-- Go's `\w` (ASCII word character, RE2 default). -/
def isWordChar (c : Char) : Bool := c.isAlphanum || c == '_'

/-- `hostSchemeRegex.MatchString source` for
`((\w+|\*):(//)?)?(\*|\w+)(\.\w+)*(:(\d+|\*))?`.  The regexp is unanchored
and its only mandatory piece is `(\*|\w+)`, every other group being optional,
so some substring matches exactly when the string contains a word character
or an asterisk. -/
def hostSchemeRegexMatch (source : String) : Bool :=
  source.data.any (fun c => isWordChar c || c == '*')

/-- `SourceDirective` from `source.go`.  `nonces` and `schemes` are the key
sets of the Go maps; `hosts` keeps the compiled globs in insertion order. -/
structure SourceDirective where
  ruleCount : Nat := 0
  none : Bool := false
  nonces : List String := []
  hashes : List HashSource := []
  unsafeEval : Bool := false
  unsafeInline : Bool := false
  self : Bool := false
  schemes : List String := []
  hosts : List Glob := []
deriving DecidableEq, Repr

/-- `urlSchemeHost` from `source.go`: clear path, raw path, query and
fragment, then render with `url.URL.String()`.  With those fields cleared and
no user/opaque part, `String()` writes `scheme:` when the scheme is nonempty
and `//host` when the host is nonempty.  (Percent-escaping of the host is
omitted: it is the identity on the hostnames in scope here, and it never
introduces a `/`.) -/
def urlSchemeHost (u : URL) : String :=
  (if u.scheme = "" then "" else u.scheme ++ ":") ++
    (if u.host = "" then "" else "//" ++ u.host)

/-- `HashSource.Check` from `source.go`: digest the context body with the
rule's algorithm and compare with the stored base64 value. -/
def HashSource.Check (h : HashSource) (digest : HashAlg → String → String) (ctx : SourceContext) : Bool :=
  digest h.alg ctx.body == h.value

/-- `SourceDirective.Check` from `source.go` lines 87–129, step for step:
`none` veto, `unsafe_eval` veto, the unsafe-inline branch gated on the nonce
set being empty, then the self / scheme (with the `http`→`https` upgrade
compatibility) / nonce / hash / host rules OR-ed into `originAllow`, with the
nonce and hash rules also clearing `isUnsafe`. -/
def SourceDirective.Check (s : SourceDirective) (digest : HashAlg → String → String) (ctx : SourceContext) : Bool :=
  if s.none then false
  else if ctx.unsafeEval && !s.unsafeEval then false
  else
    let step1 : Bool × Bool :=
      if ctx.unsafeInline && s.nonces.isEmpty && s.unsafeInline then (true, false)
      else (false, ctx.unsafeInline)
    let allow1 : Bool :=
      if s.self && ctx.url.host == ctx.page.host && ctx.url.scheme == ctx.page.scheme then true
      else step1.1
    let allow2 : Bool :=
      if s.schemes.contains ctx.url.scheme || (s.schemes.contains "http" && ctx.url.scheme == "https") then true
      else allow1
    let step2 : Bool × Bool :=
      if s.nonces.contains ctx.nonce then (true, false) else (allow2, step1.2)
    let step3 : Bool × Bool :=
      if s.hashes.any (fun h => h.Check digest ctx) then (true, false) else step2
    let srcHost := urlSchemeHost ctx.url
    let allow3 : Bool :=
      if s.hosts.any (fun g => globMatch g srcHost.data) then true else step3.1
    allow3 && !step3.2

/-- The classification a token receives in `ParseSource`'s branch structure
(`source.go` lines 148–222): the quoted-keyword switch, the quoted
`kind-value` split into nonce/hash, the trailing-colon scheme form, the
host/scheme-grammar form, or none of these. -/
inductive SourceToken where
  | selfTok : SourceToken
  | unsafeInlineTok : SourceToken
  | unsafeEvalTok : SourceToken
  | noneTok : SourceToken
  | ignoredTok : SourceToken
  | nonceTok : String → SourceToken
  | hashTok : HashAlg → String → SourceToken
  | schemeTok : String → SourceToken
  | hostTok : String → SourceToken
  | badTok : SourceToken
deriving DecidableEq, Repr

/-- The branch `ParseSource` takes on a token, condition for condition in the
Go order.  `ignoredTok` is `'strict-dynamic'` / `'report-sample'` (accepted,
no effect).  One divergence, unreachable through `ParsePolicy`'s token lists:
on the single-character token `'` the Go code panics slicing `source[1:0]`,
while this model classifies it `badTok`. -/
def classifySource (source : String) : SourceToken :=
  if strHasPrefix source "'" && strHasSuffix source "'" then
    if source == "'self'" then .selfTok
    else if source == "'unsafe-inline'" then .unsafeInlineTok
    else if source == "'unsafe-eval'" then .unsafeEvalTok
    else if source == "'none'" then .noneTok
    else if source == "'strict-dynamic'" then .ignoredTok
    else if source == "'report-sample'" then .ignoredTok
    else
      match splitOnChar ((source.drop 1).dropRight 1) '-' with
      | [kind, val] =>
        if kind == "nonce" then .nonceTok val
        else if kind == "sha256" then .hashTok .sha256 val
        else if kind == "sha384" then .hashTok .sha384 val
        else if kind == "sha512" then .hashTok .sha512 val
        else .badTok
      | _ => .badTok
  else
    if strHasSuffix source ":" then .schemeTok (source.dropRight 1)
    else if hostSchemeRegexMatch source then .hostTok source
    else .badTok

/-- `SourceDirective.ParseSource` from `source.go` lines 148–222: bump
`ruleCount`, then apply the effect of the branch `classifySource` picks —
each arm below is the body of the corresponding Go branch. -/
def SourceDirective.ParseSource (s0 : SourceDirective) (source : String) : Except String SourceDirective :=
  let s := { s0 with ruleCount := s0.ruleCount + 1 }
  match classifySource source with
  | .selfTok => .ok { s with self := true }
  | .unsafeInlineTok => .ok { s with unsafeInline := true }
  | .unsafeEvalTok => .ok { s with unsafeEval := true }
  | .noneTok => .ok { s with none := true }
  | .ignoredTok => .ok s
  | .nonceTok val => .ok { s with nonces := s.nonces ++ [val] }
  | .hashTok alg val => .ok { s with hashes := s.hashes ++ [⟨alg, val⟩] }
  | .schemeTok scheme => .ok { s with schemes := s.schemes ++ [scheme] }
  | .hostTok pat =>
    .ok { s with hosts := s.hosts ++ [globCompile (sanitizeGlob pat), globCompile ("*://" ++ sanitizeGlob pat)] }
  | .badTok => .error ("unknown source " ++ source)

/-- `SourceDirective.Validate` from `source.go`: `'none'` must be the only
token.  `some msg` is the returned error, `none` is Go's `nil`. -/
def SourceDirective.Validate (s : SourceDirective) : Option String :=
  if s.none && s.ruleCount != 1 then some "none must only be specified" else Option.none

/-- The parse loop of `ParseSourceDirective`: thread the directive through
`ParseSource` over the token list, stopping at the first error. -/
def parseSourceList (s : SourceDirective) : List String → Except String SourceDirective
  | [] => .ok s
  | t :: ts =>
    match s.ParseSource t with
    | .error e => .error e
    | .ok s' => parseSourceList s' ts

/-- `ParseSourceDirective` from `source.go` lines 48–62: parse every token,
then validate. -/
def ParseSourceDirective (sources : List String) : Except String SourceDirective :=
  match parseSourceList {} sources with
  | .error e => .error e
  | .ok s =>
    match s.Validate with
    | some e => .error e
    | Option.none => .ok s

/-- The `Directive` interface: either the always-allow rule
(`AllowDirective` from `directive.go`) or a source directive. -/
inductive Directive where
  | allow : Directive
  | source : SourceDirective → Directive
deriving DecidableEq, Repr

/-- Dispatch of `Directive.Check`: `AllowDirective.Check` returns true for
every context; a `SourceDirective` checks as above. -/
def Directive.Check (d : Directive) (digest : HashAlg → String → String) (ctx : SourceContext) : Bool :=
  match d with
  | .allow => true
  | .source s => s.Check digest ctx

/-- `Policy`: named directives plus the two global flags.  The Go map of
directives is an association list where insertion conses and `lookup` takes
the first hit, which reproduces map-overwrite semantics. -/
structure Policy where
  directives : List (String × Directive) := []
  upgradeInsecureRequests : Bool := false
  blockAllMixedContent : Bool := false
deriving DecidableEq, Repr

/-- The fetch-directive names `ParsePolicy` hands to `ParseSourceDirective`. -/
def sourceDirectiveNames : List String :=
  ["base-uri", "child-src", "connect-src", "default-src", "font-src",
   "form-action", "frame-ancestors", "frame-src", "img-src", "manifest-src",
   "media-src", "object-src", "script-src", "style-src", "worker-src"]

/-- `url.Parse`, modelled for the hierarchical URL shapes this development
evaluates: `scheme://host[/path]` and otherwise a bare (relative) path.
Query/fragment splitting and percent-decoding are omitted — no claim settled
here feeds a URL containing `?`, `#` or an escape to this parser, and
`SourceDirective.Check` never reads the path, query or fragment. -/
def parseURL (s : String) : Option URL :=
  match splitOnFirst [':', '/', '/'] s.data with
  | some (a, b) =>
    match splitOnChar (String.mk b) '/' with
    | [] => Option.none
    | h :: rest =>
      some { scheme := String.mk a, host := h,
             path := if rest.isEmpty then "" else "/" ++ String.intercalate "/" rest }
  | Option.none => some { path := s }

/-- `url.URL.ResolveReference`, modelled for the cases the engine exercises:
an absolute reference wins outright; otherwise scheme (and host) are
inherited from the base.  Relative-path merging is simplified to keeping the
reference path — faithful enough here because `Check` strips the path before
any comparison. -/
def resolveReference (base ref : URL) : URL :=
  if ref.scheme ≠ "" then ref
  else if ref.host ≠ "" then { ref with scheme := base.scheme }
  else { base with path := ref.path, query := ref.query, fragment := ref.fragment }

/-- One step of `ParsePolicy`'s loop over `;`-separated directive
definitions (`part_002` lines 23–61). -/
def parsePolicyDirective (p : Policy) (directive : String) : Except String Policy :=
  match fieldsOf directive with
  | [] => .error "empty directive field"
  | directiveType :: rest =>
    if sourceDirectiveNames.contains directiveType then
      match ParseSourceDirective rest with
      | .error e => .error e
      | .ok d => .ok { p with directives := (directiveType, Directive.source d) :: p.directives }
    else if directiveType == "report-uri" then
      match rest with
      | [u] => match parseURL u with
               | some _ => .ok p
               | Option.none => .error "report-uri: bad url"
      | _ => .error "report-uri expects 1 field"
    else if directiveType == "upgrade-insecure-requests" then
      if rest.isEmpty then .ok { p with upgradeInsecureRequests := true }
      else .error "upgrade-insecure-requests expects 0 field"
    else if directiveType == "block-all-mixed-content" then
      if rest.isEmpty then .ok { p with blockAllMixedContent := true }
      else .error "block-all-mixed-content expects 0 field"
    else .error ("unknown directive " ++ directive)

/-- The fold of `parsePolicyDirective` over the split policy string. -/
def parsePolicyList (p : Policy) : List String → Except String Policy
  | [] => .ok p
  | d :: ds =>
    match parsePolicyDirective p d with
    | .error e => .error e
    | .ok p' => parsePolicyList p' ds

/-- `ParsePolicy` from `part_002`: split on `;` and fold. -/
def ParsePolicy (policy : String) : Except String Policy :=
  parsePolicyList {} (splitOnChar policy ';')

/-- The permissive fourth-tier fallback of `Policy.Directive`: a source
directive whose single host pattern is `glob.Compile("*://*", '/')`. -/
def permissiveDefault : SourceDirective := { hosts := [globCompile "*://*"] }

/-- `Policy.Directive` from `part_002` lines 68–92: exact name, then the
`frame-ancestors` always-allow default, then `default-src`, then the
permissive default. -/
def Policy.Directive (p : Policy) (name : String) :=
  match p.directives.lookup name with
  | some d => d
  | Option.none =>
    if name = "frame-ancestors" then Directive.allow
    else
      match p.directives.lookup "default-src" with
      | some d => d
      | Option.none => Directive.source permissiveDefault

/-- The element names the mixed-content-aware `ValidatePage` treats as
passive content (`htmlPassiveElements` in the `src/csp_test.go` variant). -/
def htmlPassiveElements : List String := ["img", "audio", "video", "object"]

/-- The mixed-content upgrade step of `ValidatePage` (`src/csp_test.go`
variant, the `if` before `directive.Check`): on an `https` page, an `http`
resource is rewritten to `https` when the element is passive content and
`block-all-mixed-content` is not set, or when `upgrade-insecure-requests`
is set. -/
def upgradeMixedContent (p : Policy) (passiveContent : Bool) (ctx : SourceContext) : SourceContext :=
  if ctx.page.scheme == "https" && ctx.url.scheme == "http" &&
      ((passiveContent && !p.blockAllMixedContent) || p.upgradeInsecureRequests) then
    { ctx with url := { ctx.url with scheme := "https" } }
  else ctx

/-- The body of `ValidatePage`'s per-element closure for the `src`-attribute
categories (script/img/media/frame/object/style), from the variant of
`ValidatePage` bundled in `src/csp_test.go` (the one that carries the
mixed-content upgrade; the copy in `src/html.go` is the same construction
without the `upgradeMixedContent` step and without a passive-element table).
`nonce`/`src` are the attribute values with `""` for an absent attribute
(`AttrOr`), `text` is the element's text content, and the document traversal
that produces them is the external parsing collaborator.  Returns whether the
element is allowed; `false` means a violation `Report` is appended.  That
variant calls `directive.Check(p, ctx)` through a `Directive` interface that
also receives the policy; the only `Check` implementations in the repository
(`source.go`, `directive.go`) and the spec's matching algorithm (§4.1) do
not consult the policy, so the dispatch here uses them. -/
def validatePageSrcElement (digest : HashAlg → String → String) (p : Policy) (page : URL)
    (directiveName elementName nonce src text : String) : Except String Bool :=
  let passiveContent := htmlPassiveElements.contains (toLowerStr elementName)
  let base : SourceContext := { page := page, nonce := nonce }
  let ctx0 : Option SourceContext :=
    if src.length > 0 then
      (parseURL src).map (fun ru => { base with url := resolveReference page ru })
    else some { base with body := text, unsafeInline := true }
  match ctx0 with
  | Option.none => .error "bad src url"
  | some c =>
    let ctx := upgradeMixedContent p passiveContent c
    .ok (Directive.Check (p.Directive directiveName) digest ctx)

/-- The body of `ValidatePage`'s per-element closure for the
`href`-attribute categories (`base-uri` → `base`, `style-src` →
`link[rel=stylesheet]`, `prefetch-src` → `link[rel=prefetch|prerender]`,
`manifest-src` → `link[rel=manifest]`), identical in both `ValidatePage`
variants: when the `href` attribute is absent or empty the context keeps the
zero URL, an empty body and `unsafeInline = false`, and the directive is
checked against that context unconditionally (no upgrade step runs in this
loop). -/
def validatePageHrefElement (digest : HashAlg → String → String) (p : Policy) (page : URL)
    (directiveName nonce href : String) : Except String Bool :=
  let base : SourceContext := { page := page, nonce := nonce }
  let ctx0 : Option SourceContext :=
    if href.length > 0 then
      (parseURL href).map (fun ru => { base with url := resolveReference page ru })
    else some base
  match ctx0 with
  | Option.none => .error "bad href url"
  | some ctx => .ok (Directive.Check (p.Directive directiveName) digest ctx)

/-- A stand-in digest function used only to instantiate theorems whose truth
is independent of digest values (directives with an empty hash list, or
hypotheses stating that no hash matches). -/
def constDigest : HashAlg → String → String := fun _ _ => ""

/-! Helper lemmas about glob matching and parsing, shared by the claim
theorems below. -/

/-- Literal glob segment from a character list. -/
def globLits (l : List Char) : List GlobPart := l.map GlobPart.lit

@[simp]
theorem globMatch_nil_nil : globMatch [] [] = true := rfl

@[simp]
theorem globMatch_nil_cons (x : Char) (xs : List Char) : globMatch [] (x :: xs) = false := rfl

@[simp]
theorem globMatch_lit_nil (c : Char) (ps : List GlobPart) : globMatch (.lit c :: ps) [] = false := rfl

@[simp]
theorem globMatch_lit_cons (c : Char) (ps : List GlobPart) (x : Char) (xs : List Char) :
    globMatch (.lit c :: ps) (x :: xs) = (c == x && globMatch ps xs) := rfl

@[simp]
theorem globMatch_star_nil (ps : List GlobPart) : globMatch (.star :: ps) [] = globMatch ps [] := rfl

theorem globMatch_star_cons (ps : List GlobPart) (x : Char) (xs : List Char) :
    globMatch (.star :: ps) (x :: xs) =
      (globMatch ps (x :: xs) || (!(x == '/') && globMatch (.star :: ps) xs)) := rfl

theorem globMatch_star_skip (ps : List GlobPart) (a b : List Char)
    (ha : '/' ∉ a) (h : globMatch ps b = true) : globMatch (.star :: ps) (a ++ b) = true := by
  induction a with
  | nil =>
    cases b with
    | nil => simpa using h
    | cons x xs => rw [List.nil_append, globMatch_star_cons]; simp [h]
  | cons x a ih =>
    have hx : x ≠ '/' := fun hh => ha (by simp [hh])
    have ht : globMatch (.star :: ps) (a ++ b) = true :=
      ih (fun hm => ha (List.mem_cons_of_mem _ hm))
    rw [List.cons_append, globMatch_star_cons]
    simp [ht, hx]

theorem globMatch_lits (l : List Char) (ps : List GlobPart) (cs : List Char) :
    globMatch (globLits l ++ ps) (l ++ cs) = globMatch ps cs := by
  induction l with
  | nil => rfl
  | cons c l ih => simpa [globLits] using ih

theorem globMatch_star_all (a : List Char) (ha : '/' ∉ a) : globMatch [.star] a = true := by
  have h := globMatch_star_skip [] a [] ha (by simp)
  simpa using h

theorem urlSchemeHost_data (u : URL) (h1 : u.scheme ≠ "") (h2 : u.host ≠ "") :
    (urlSchemeHost u).data = u.scheme.data ++ ([':', '/', '/'] ++ u.host.data) := by
  simp [urlSchemeHost, h1, h2, String.data_append]

/-- The permissive fallback pattern `*://*` matches the scheme-host rendering
of every URL whose scheme and host are nonempty and free of the separator. -/
theorem permissive_glob_matches (u : URL) (h1 : u.scheme ≠ "") (h2 : u.host ≠ "")
    (h3 : '/' ∉ u.scheme.data) (h4 : '/' ∉ u.host.data) :
    globMatch (globCompile "*://*") (urlSchemeHost u).data = true := by
  have hg : globCompile "*://*" = .star :: (globLits [':', '/', '/'] ++ [.star]) := rfl
  rw [hg, urlSchemeHost_data u h1 h2]
  apply globMatch_star_skip _ _ _ h3
  rw [globMatch_lits]
  exact globMatch_star_all _ h4

theorem parseSource_ok_ruleCount (s s' : SourceDirective) (t : String)
    (h : s.ParseSource t = .ok s') : s'.ruleCount = s.ruleCount + 1 := by
  unfold SourceDirective.ParseSource at h
  cases hc : classifySource t <;> rw [hc] at h <;> (try cases h) <;> simp_all

theorem parseSource_none_mono (s s' : SourceDirective) (t : String)
    (h : s.ParseSource t = .ok s') (hn : s.none = true) : s'.none = true := by
  unfold SourceDirective.ParseSource at h
  cases hc : classifySource t <;> rw [hc] at h <;> (try cases h) <;> simp_all

theorem parseSource_none_token (s s' : SourceDirective)
    (h : s.ParseSource "'none'" = .ok s') : s'.none = true := by
  have hc : classifySource "'none'" = .noneTok := by decide
  unfold SourceDirective.ParseSource at h
  rw [hc] at h
  cases h
  rfl

theorem parseSourceList_ok (ts : List String) (s s' : SourceDirective)
    (h : parseSourceList s ts = .ok s') :
    s'.ruleCount = s.ruleCount + ts.length ∧ (s.none = true → s'.none = true) ∧
      ("'none'" ∈ ts → s'.none = true) := by
  induction ts generalizing s with
  | nil =>
    cases h
    exact ⟨rfl, fun hn => hn, by simp⟩
  | cons t ts ih =>
    unfold parseSourceList at h
    cases hp : s.ParseSource t with
    | error e => rw [hp] at h; cases h
    | ok s1 =>
      rw [hp] at h
      obtain ⟨hrc, hmono, hmem⟩ := ih s1 h
      refine ⟨?_, ?_, ?_⟩
      · rw [hrc, parseSource_ok_ruleCount s s1 t hp]
        simp only [List.length_cons]
        omega
      · exact fun hn => hmono (parseSource_none_mono s s1 t hp hn)
      · intro hin
        rcases List.mem_cons.mp hin with heq | hin2
        · exact hmono (parseSource_none_token s s1 (heq ▸ hp))
        · exact hmem hin2

/-- C8: a `SourceDirective` with the `none` flag set rejects every context:
`Check` returns `false` unconditionally, regardless of any other rule (self,
schemes, nonces, hashes, hosts, unsafe flags) and regardless of the
context. -/
theorem check_none_rejects_all (digest : HashAlg → String → String)
    (s : SourceDirective) (ctx : SourceContext) (h : s.none = true) :
    s.Check digest ctx = false := by
  simp [SourceDirective.Check, h]

/-- Witness for C8: the directive parsed from `'none'` rejects a concrete
context that every other rule would allow. -/
theorem check_none_rejects_all_witness :
    SourceDirective.Check
      { ruleCount := 1, none := true, self := true, unsafeInline := true, schemes := ["https"] }
      constDigest { url := { scheme := "https", host := "a.com" } } = false :=
  check_none_rejects_all constDigest
    { ruleCount := 1, none := true, self := true, unsafeInline := true, schemes := ["https"] }
    { url := { scheme := "https", host := "a.com" } } rfl

/-- C7: a directive whose scheme set contains `http` allows every context
with URL scheme `https` (the implicit upgrade-compatibility rule), absent the
`none` flag and inline/eval vetoes; and the directive parsed from the single
token `https:` rejects every context whose URL scheme is `http`. -/
theorem scheme_upgrade_compat :
    (∀ (digest : HashAlg → String → String) (s : SourceDirective) (ctx : SourceContext),
      s.none = false → s.schemes.contains "http" = true → ctx.url.scheme = "https" →
      ctx.unsafeInline = false → ctx.unsafeEval = false → s.Check digest ctx = true) ∧
    (ParseSourceDirective ["https:"] = .ok { ruleCount := 1, schemes := ["https"] } ∧
     ∀ (digest : HashAlg → String → String) (ctx : SourceContext), ctx.url.scheme = "http" →
       SourceDirective.Check { ruleCount := 1, schemes := ["https"] } digest ctx = false) := by
  refine ⟨?_, by decide, ?_⟩
  · intro digest s ctx h1 h2 h3 h4 h5
    have h2m : "http" ∈ s.schemes := by simpa using h2
    simp [SourceDirective.Check, h1, h2m, h3, h4, h5]
  · intro digest ctx h
    simp [SourceDirective.Check, h]

/-- Witness for C7 at concrete inputs: `http:` allows an `https` URL, and the
`https:` directive rejects an `http` URL. -/
theorem scheme_upgrade_compat_witness :
    SourceDirective.Check { ruleCount := 1, schemes := ["http"] } constDigest
      { url := { scheme := "https", host := "a.com" } } = true ∧
    SourceDirective.Check { ruleCount := 1, schemes := ["https"] } constDigest
      { url := { scheme := "http", host := "a.com" } } = false :=
  ⟨scheme_upgrade_compat.1 constDigest { ruleCount := 1, schemes := ["http"] }
      { url := { scheme := "https", host := "a.com" } } rfl (by decide) rfl rfl rfl,
   scheme_upgrade_compat.2.2 constDigest { url := { scheme := "http", host := "a.com" } } rfl⟩

/-- C5: `Policy.Directive` resolves with the precedence (1) the directive
stored under the name, (2) for an absent `frame-ancestors` an always-allow
rule whose `Check` accepts every context (not the `default-src` fallback),
(3) the stored `default-src`, (4) the permissive default. -/
theorem policy_directive_precedence (p : Policy) (name : String) :
    (∀ d, p.directives.lookup name = some d → p.Directive name = d) ∧
    (p.directives.lookup "frame-ancestors" = Option.none →
      p.Directive "frame-ancestors" = Directive.allow ∧
      ∀ (digest : HashAlg → String → String) (ctx : SourceContext),
        Directive.Check Directive.allow digest ctx = true) ∧
    (p.directives.lookup name = Option.none → name ≠ "frame-ancestors" →
      ∀ d, p.directives.lookup "default-src" = some d → p.Directive name = d) ∧
    (p.directives.lookup name = Option.none → name ≠ "frame-ancestors" →
      p.directives.lookup "default-src" = Option.none →
      p.Directive name = Directive.source permissiveDefault) := by
  refine ⟨?_, ?_, ?_, ?_⟩
  · intro d h
    simp [Policy.Directive, h]
  · intro h
    refine ⟨by simp [Policy.Directive, h], fun digest ctx => rfl⟩
  · intro h1 h2 d h3
    simp [Policy.Directive, h1, h2, h3]
  · intro h1 h2 h3
    simp [Policy.Directive, h1, h2, h3]

/-- Witness for C5, exercising all four tiers on concrete policies. -/
theorem policy_directive_precedence_witness :
    (Policy.mk [("script-src", Directive.allow)] false false).Directive "script-src" = Directive.allow ∧
    ((Policy.mk [] false false).Directive "frame-ancestors" = Directive.allow ∧
      Directive.Check Directive.allow constDigest {} = true) ∧
    (Policy.mk [("default-src", Directive.allow)] false false).Directive "img-src" = Directive.allow ∧
    (Policy.mk [] false false).Directive "img-src" = Directive.source permissiveDefault := by
  refine ⟨(policy_directive_precedence _ "script-src").1 _ (by decide), ?_, ?_, ?_⟩
  · obtain ⟨ha, hb⟩ := (policy_directive_precedence (Policy.mk [] false false) "frame-ancestors").2.1 (by decide)
    exact ⟨ha, hb constDigest {}⟩
  · exact ((policy_directive_precedence _ "img-src").2.2.1 (by decide) (by decide)) _ (by decide)
  · exact (policy_directive_precedence (Policy.mk [] false false) "img-src").2.2.2 (by decide) (by decide) (by decide)

/-- C4 counterexample: the claim says a context with an empty nonce is never
allowed via the nonce rule, even for a directive parsed from the token
`'nonce-'`.  In the code the nonce rule is a bare set-membership test with no
non-emptiness check: `'nonce-'` registers the empty string, and a context
whose nonce attribute is absent (empty) is then allowed by a directive that
contains no other allowing rule. -/
theorem check_empty_nonce_counterexample :
    ParseSourceDirective ["'nonce-'"] = .ok { ruleCount := 1, nonces := [""] } ∧
    SourceDirective.Check { ruleCount := 1, nonces := [""] } constDigest {} = true :=
  ⟨by decide, by decide⟩

/-- C4 (amended): the nonce rule of `Check` sets `origin_allow` and clears
`is_unsafe` exactly on membership of the context nonce in the directive's
nonce set, with no non-emptiness requirement: any context whose nonce is a
member — the empty nonce included, when the directive was parsed from
`'nonce-'`, which registers the empty string — passes `Check` outright
(absent the `none` flag and the eval veto). -/
theorem check_nonce_membership :
    (∀ (digest : HashAlg → String → String) (s : SourceDirective) (ctx : SourceContext),
      s.none = false → ctx.unsafeEval = false → ctx.nonce ∈ s.nonces →
      s.Check digest ctx = true) ∧
    ParseSourceDirective ["'nonce-'"] = .ok { ruleCount := 1, nonces := [""] } := by
  refine ⟨?_, by decide⟩
  intro digest s ctx h1 h2 h3
  simp [SourceDirective.Check, h1, h2, h3]

/-- Witness for C4's amended theorem: a directive with registered nonce
`foo` allows a context carrying nonce `foo`. -/
theorem check_nonce_membership_witness :
    SourceDirective.Check { ruleCount := 1, nonces := ["foo"] } constDigest { nonce := "foo" } = true :=
  check_nonce_membership.1 constDigest { ruleCount := 1, nonces := ["foo"] } { nonce := "foo" }
    rfl rfl (by decide)

/-- C1 counterexample: the claim says that adding any hash source to an
`'unsafe-inline'` directive makes an inline context whose body matches no
hash rejected.  The code's gate on the plain unsafe-inline allowance counts
only nonces, so the directive parsed from `'unsafe-inline' 'sha256-abc'`
still allows an inline context whose body digest differs from `abc`. -/
theorem check_unsafeInline_hash_counterexample :
    ParseSourceDirective ["'unsafe-inline'", "'sha256-abc'"] =
      .ok { ruleCount := 2, unsafeInline := true, hashes := [⟨.sha256, "abc"⟩] } ∧
    constDigest HashAlg.sha256 "bar" ≠ "abc" ∧
    SourceDirective.Check { ruleCount := 2, unsafeInline := true, hashes := [⟨.sha256, "abc"⟩] }
      constDigest { unsafeInline := true, body := "bar" } = true :=
  ⟨by decide, by decide, by decide⟩

/-- C1 (amended): for a directive allowing `unsafe_inline` (and without the
`none` flag) and an inline context — `unsafe_inline` set, `unsafe_eval`
clear, empty nonce, body matching no hash of the directive: if the directive
has no nonces then `Check` returns true, hashes or not (only nonces disable
the plain unsafe-inline allowance); if the directive has a nonce source and
the empty string is not among its nonces, `Check` returns false. -/
theorem check_unsafeInline_nonce_gate (digest : HashAlg → String → String)
    (s : SourceDirective) (ctx : SourceContext)
    (hui : ctx.unsafeInline = true) (hev : ctx.unsafeEval = false) (hn : ctx.nonce = "")
    (hhash : ∀ h ∈ s.hashes, digest h.alg ctx.body ≠ h.value)
    (hsui : s.unsafeInline = true) (hnone : s.none = false) :
    (s.nonces = [] → s.Check digest ctx = true) ∧
    (s.nonces ≠ [] → "" ∉ s.nonces → s.Check digest ctx = false) := by
  constructor
  · intro he
    simp [SourceDirective.Check, hnone, hev, hui, hsui, he]
  · intro hne hnm
    have hemp : s.nonces.isEmpty = false := by
      simpa [List.isEmpty_iff] using hne
    have hcont : (ctx.nonce ∈ s.nonces) = False := by
      rw [hn]; simpa using hnm
    have hhash2 : ∀ h ∈ s.hashes, h.Check digest ctx = false := by
      intro h hm
      simpa [HashSource.Check] using hhash h hm
    have hex : (∃ x ∈ s.hashes, x.Check digest ctx = true) = False := by
      simp only [eq_iff_iff, iff_false]
      rintro ⟨x, hx, hc⟩
      rw [hhash2 x hx] at hc
      exact Bool.false_ne_true hc
    simp [SourceDirective.Check, hnone, hev, hui, hemp, hcont, hex]

/-- Witness for C1's amended theorem: both branches at concrete directives
and the inline context with body `bar`. -/
theorem check_unsafeInline_nonce_gate_witness :
    SourceDirective.Check { ruleCount := 1, unsafeInline := true } constDigest
      { unsafeInline := true, body := "bar" } = true ∧
    SourceDirective.Check { ruleCount := 2, unsafeInline := true, nonces := ["foo"] } constDigest
      { unsafeInline := true, body := "bar" } = false :=
  ⟨(check_unsafeInline_nonce_gate constDigest { ruleCount := 1, unsafeInline := true }
      { unsafeInline := true, body := "bar" } rfl rfl rfl (by simp) rfl rfl).1 rfl,
   (check_unsafeInline_nonce_gate constDigest { ruleCount := 2, unsafeInline := true, nonces := ["foo"] }
      { unsafeInline := true, body := "bar" } rfl rfl rfl (by simp) rfl rfl).2 (by simp) (by decide)⟩

/-- C3 counterexample: the claim says the permissive default returned for a
policy with neither the named directive nor `default-src` allows every
context, inline contexts with an empty URL included.  For the parsed policy
`img-src 'none'` (no `script-src`, no `default-src`), the permissive default
rejects an inline context: its `*://*` host pattern cannot match the empty
scheme-host rendering of the zero URL, and no other rule fires. -/
theorem permissiveDefault_rejects_inline_counterexample :
    ParsePolicy "img-src 'none'" =
      .ok { directives := [("img-src", Directive.source { ruleCount := 1, none := true })] } ∧
    Directive.Check
      ((Policy.mk [("img-src", Directive.source { ruleCount := 1, none := true })] false false).Directive
        "script-src")
      constDigest { unsafeInline := true, body := "foo" } = false :=
  ⟨by decide, by decide⟩

/-- C3 (amended): the permissive default returned when neither the named
directive (not `frame-ancestors`) nor `default-src` exists allows exactly the
non-inline, non-eval contexts whose URL renders as `scheme://host` with a
nonempty scheme and host free of the glob separator `/`; contexts with the
zero URL — in particular every inline context — are rejected, since `*://*`
cannot match the empty string. -/
theorem permissiveDefault_origin_allows :
    (∀ (digest : HashAlg → String → String) (p : Policy) (name : String) (ctx : SourceContext),
      p.directives.lookup name = Option.none →
      p.directives.lookup "default-src" = Option.none →
      name ≠ "frame-ancestors" →
      ctx.unsafeInline = false → ctx.unsafeEval = false →
      ctx.url.scheme ≠ "" → ctx.url.host ≠ "" →
      '/' ∉ ctx.url.scheme.data → '/' ∉ ctx.url.host.data →
      Directive.Check (p.Directive name) digest ctx = true) ∧
    (∀ (digest : HashAlg → String → String) (p : Policy) (name : String) (ctx : SourceContext),
      p.directives.lookup name = Option.none →
      p.directives.lookup "default-src" = Option.none →
      name ≠ "frame-ancestors" →
      ctx.url = {} →
      Directive.Check (p.Directive name) digest ctx = false) := by
  constructor
  · intro digest p name ctx h1 h2 h3 h4 h5 h6 h7 h8 h9
    have hd : p.Directive name = Directive.source permissiveDefault := by
      simp [Policy.Directive, h1, h2, h3]
    rw [hd]
    have hm := permissive_glob_matches ctx.url h6 h7 h8 h9
    simp [Directive.Check, SourceDirective.Check, permissiveDefault, h4, h5, hm]
  · intro digest p name ctx h1 h2 h3 h4
    have hd : p.Directive name = Directive.source permissiveDefault := by
      simp [Policy.Directive, h1, h2, h3]
    rw [hd]
    simp [Directive.Check, SourceDirective.Check, permissiveDefault, h4, urlSchemeHost,
      show globMatch (globCompile "*://*") [] = false from rfl]

/-- Witness for C3's amended theorem: under the empty policy, an ordinary
`https://a.com` reference passes the permissive default and the zero-URL
inline context fails it. -/
theorem permissiveDefault_origin_allows_witness :
    Directive.Check ((Policy.mk [] false false).Directive "script-src") constDigest
      { url := { scheme := "https", host := "a.com" } } = true ∧
    Directive.Check ((Policy.mk [] false false).Directive "script-src") constDigest
      { unsafeInline := true, body := "x" } = false :=
  ⟨permissiveDefault_origin_allows.1 constDigest (Policy.mk [] false false) "script-src"
      { url := { scheme := "https", host := "a.com" } } rfl rfl (by decide) rfl rfl
      (by decide) (by decide) (by decide) (by decide),
   permissiveDefault_origin_allows.2 constDigest (Policy.mk [] false false) "script-src"
      { unsafeInline := true, body := "x" } rfl rfl (by decide) rfl⟩

/-- The directive compiled from the single host token `*.example.com`: the
token passes the host/scheme grammar and is stored as the two glob patterns
`*.example.com` and `*://*.example.com`. -/
def wildcardExampleDirective : SourceDirective :=
  { ruleCount := 1, hosts := [globCompile "*.example.com", globCompile "*://*.example.com"] }

/-- C6: the directive parsed from `*.example.com` allows a context URL with
host `sub.example.com` under any scheme (each host token is compiled both
as-is and with a `*://` prefix), rejects hosts `example.com` and
`evil-example.com`, and glob metacharacters inside literal segments are
escaped by `sanitizeGlob` so they match literally. -/
theorem host_glob_wildcard_subdomain :
    ParseSourceDirective ["*.example.com"] = .ok wildcardExampleDirective ∧
    (∀ (digest : HashAlg → String → String) (ctx : SourceContext),
      ctx.url.host = "sub.example.com" → ctx.url.scheme ≠ "" → '/' ∉ ctx.url.scheme.data →
      ctx.unsafeInline = false → ctx.unsafeEval = false →
      wildcardExampleDirective.Check digest ctx = true) ∧
    (∀ digest : HashAlg → String → String, SourceDirective.Check wildcardExampleDirective digest
      { url := { scheme := "https", host := "example.com" } } = false) ∧
    (∀ digest : HashAlg → String → String, SourceDirective.Check wildcardExampleDirective digest
      { url := { scheme := "https", host := "evil-example.com" } } = false) ∧
    (sanitizeGlob "a[b.com" = "a\\[b.com" ∧
      globMatch (globCompile (sanitizeGlob "a[b.com")) "a[b.com".data = true ∧
      globMatch (globCompile (sanitizeGlob "a[b.com")) "axb.com".data = false) := by
  refine ⟨by decide, ?_, ?_, ?_, by decide, by decide, by decide⟩
  · intro digest ctx hhost hs hslash hui hev
    have hh : ctx.url.host ≠ "" := by rw [hhost]; decide
    have hmatch : globMatch (globCompile "*://*.example.com") (urlSchemeHost ctx.url).data = true := by
      have hg : globCompile "*://*.example.com" =
          .star :: (globLits [':', '/', '/'] ++ (.star :: globLits ".example.com".data)) := by decide
      rw [urlSchemeHost_data ctx.url hs hh, hhost, hg]
      apply globMatch_star_skip _ _ _ hslash
      rw [globMatch_lits]
      decide
    simp [SourceDirective.Check, wildcardExampleDirective, hui, hev, hmatch]
  · intro digest
    simp [SourceDirective.Check, wildcardExampleDirective,
      show globMatch (globCompile "*.example.com") (urlSchemeHost { scheme := "https", host := "example.com" }).data = false from by decide,
      show globMatch (globCompile "*://*.example.com") (urlSchemeHost { scheme := "https", host := "example.com" }).data = false from by decide]
  · intro digest
    simp [SourceDirective.Check, wildcardExampleDirective,
      show globMatch (globCompile "*.example.com") (urlSchemeHost { scheme := "https", host := "evil-example.com" }).data = false from by decide,
      show globMatch (globCompile "*://*.example.com") (urlSchemeHost { scheme := "https", host := "evil-example.com" }).data = false from by decide]

/-- Witness for C6: the `*.example.com` directive at concrete contexts. -/
theorem host_glob_wildcard_subdomain_witness :
    SourceDirective.Check wildcardExampleDirective constDigest
      { url := { scheme := "https", host := "sub.example.com" } } = true ∧
    SourceDirective.Check wildcardExampleDirective constDigest
      { url := { scheme := "https", host := "example.com" } } = false ∧
    SourceDirective.Check wildcardExampleDirective constDigest
      { url := { scheme := "https", host := "evil-example.com" } } = false :=
  ⟨host_glob_wildcard_subdomain.2.1 constDigest
      { url := { scheme := "https", host := "sub.example.com" } } rfl (by decide) (by decide) rfl rfl,
   host_glob_wildcard_subdomain.2.2.1 constDigest,
   host_glob_wildcard_subdomain.2.2.2.1 constDigest⟩

/-- C9: a token list containing `'none'` together with at least one other
token never parses — either some token is itself invalid, or every token
parses, `ruleCount` equals the list length (at least two) and `Validate`
rejects the directive; the singleton list `['none']` parses successfully. -/
theorem parse_none_exclusive :
    (∀ (srcs : List String), "'none'" ∈ srcs → 2 ≤ srcs.length →
      ∀ s : SourceDirective, ParseSourceDirective srcs ≠ .ok s) ∧
    ParseSourceDirective ["'none'"] = .ok { ruleCount := 1, none := true } := by
  refine ⟨?_, by decide⟩
  intro srcs hmem hlen s h
  unfold ParseSourceDirective at h
  cases hp : parseSourceList {} srcs with
  | error e => rw [hp] at h; cases h
  | ok s0 =>
    rw [hp] at h
    have h2 : (match s0.Validate with
        | some e => Except.error e
        | Option.none => Except.ok s0) = Except.ok s := h
    obtain ⟨hrc, _, hnone⟩ := parseSourceList_ok srcs {} s0 hp
    have hrc2 : s0.ruleCount = srcs.length := by simpa using hrc
    have hval : s0.Validate = some "none must only be specified" := by
      have hne : (s0.ruleCount != 1) = true := by
        rw [hrc2]; simp; omega
      simp [SourceDirective.Validate, hnone hmem, hne]
    rw [hval] at h2
    cases h2

/-- Witness for C9: `'none'` next to `'self'` does not parse. -/
theorem parse_none_exclusive_witness :
    ParseSourceDirective ["'none'", "'self'"] ≠
      .ok { ruleCount := 2, none := true, self := true } :=
  parse_none_exclusive.1 ["'none'", "'self'"] (by decide) (by decide)
    { ruleCount := 2, none := true, self := true }

/-- C10: for every href-category element whose `href` attribute is absent or
empty, `ValidatePage` evaluates the applicable directive on a context whose
URL is the zero URL, with `unsafe_inline` false and an empty body; under the
parsed policy `style-src 'unsafe-inline'` a bare `link[rel=stylesheet]` is
therefore reported as a violation even though no resource is loaded. -/
theorem href_empty_context_evaluation :
    (∀ (digest : HashAlg → String → String) (p : Policy) (page : URL) (directiveName nonce : String),
      validatePageHrefElement digest p page directiveName nonce "" =
        .ok (Directive.Check (p.Directive directiveName) digest { page := page, nonce := nonce })) ∧
    (ParsePolicy "style-src 'unsafe-inline'" =
      .ok { directives := [("style-src", Directive.source { ruleCount := 1, unsafeInline := true })] } ∧
     validatePageHrefElement constDigest
       { directives := [("style-src", Directive.source { ruleCount := 1, unsafeInline := true })] }
       { scheme := "https", host := "google.com" } "style-src" "" "" = .ok false) :=
  ⟨fun digest p page directiveName nonce => rfl, by decide, by decide⟩

/-- C2 counterexample: the claim says that under the policy
`block-all-mixed-content`, page `https://a.com` and image reference
`http://a.com/x.png`, the reference is rejected.  In the code nothing
rejects it: the scheme is (correctly) not upgraded, but `img-src` resolves —
with no `img-src` and no `default-src` in the policy — to the permissive
default, whose `*://*` host pattern matches `http://a.com`, so the element
is allowed. -/
theorem validatePage_blockAllMixedContent_counterexample :
    ParsePolicy "block-all-mixed-content" = .ok { blockAllMixedContent := true } ∧
    validatePageSrcElement constDigest { blockAllMixedContent := true }
      { scheme := "https", host := "a.com" } "img-src" "img" "" "http://a.com/x.png" "" = .ok true :=
  ⟨by decide, by decide⟩

/-- C2 (amended): `ValidatePage` (its mixed-content-aware variant) rewrites
the resolved resource scheme from `http` to `https` before evaluation
whenever the page scheme is `https` and (the element is passive content with
`block_all_mixed_content` unset, or `upgrade_insecure_requests` is set); with
policy `upgrade-insecure-requests` the image `http://a.com/x.png` on page
`https://a.com` is allowed; with policy `block-all-mixed-content` no rewrite
happens, but the same reference is still allowed, because the unconstrained
policy resolves `img-src` to the permissive default, which matches `http`
URLs too. -/
theorem validatePage_mixedContent_upgrade :
    (∀ (p : Policy) (passive : Bool) (ctx : SourceContext),
      ctx.page.scheme = "https" → ctx.url.scheme = "http" →
      ((passive = true ∧ p.blockAllMixedContent = false) ∨ p.upgradeInsecureRequests = true) →
      upgradeMixedContent p passive ctx = { ctx with url := { ctx.url with scheme := "https" } }) ∧
    (∀ (p : Policy) (passive : Bool) (ctx : SourceContext),
      p.blockAllMixedContent = true → p.upgradeInsecureRequests = false →
      upgradeMixedContent p passive ctx = ctx) ∧
    (ParsePolicy "upgrade-insecure-requests" = .ok { upgradeInsecureRequests := true } ∧
     validatePageSrcElement constDigest { upgradeInsecureRequests := true }
       { scheme := "https", host := "a.com" } "img-src" "img" "" "http://a.com/x.png" "" = .ok true) ∧
    (ParsePolicy "block-all-mixed-content" = .ok { blockAllMixedContent := true } ∧
     validatePageSrcElement constDigest { blockAllMixedContent := true }
       { scheme := "https", host := "a.com" } "img-src" "img" ""
       "http://a.com/x.png" "" = .ok true) := by
  refine ⟨?_, ?_, ⟨by decide, by decide⟩, by decide, by decide⟩
  · intro p passive ctx h1 h2 h3
    rcases h3 with ⟨hp, hb⟩ | hu
    · simp [upgradeMixedContent, h1, h2, hp, hb]
    · simp [upgradeMixedContent, h1, h2, hu]
  · intro p passive ctx h1 h2
    simp [upgradeMixedContent, h1, h2]

/-- Witness for C2's amended theorem: the upgrade fires for a passive
element under `upgrade-insecure-requests`, and does nothing under
`block-all-mixed-content`. -/
theorem validatePage_mixedContent_upgrade_witness :
    upgradeMixedContent { upgradeInsecureRequests := true } true
      { url := { scheme := "http", host := "a.com", path := "/x.png" },
        page := { scheme := "https", host := "a.com" } } =
      { url := { scheme := "https", host := "a.com", path := "/x.png" },
        page := { scheme := "https", host := "a.com" } } ∧
    upgradeMixedContent { blockAllMixedContent := true } true
      { url := { scheme := "http", host := "a.com", path := "/x.png" },
        page := { scheme := "https", host := "a.com" } } =
      { url := { scheme := "http", host := "a.com", path := "/x.png" },
        page := { scheme := "https", host := "a.com" } } :=
  ⟨validatePage_mixedContent_upgrade.1 { upgradeInsecureRequests := true } true
      { url := { scheme := "http", host := "a.com", path := "/x.png" },
        page := { scheme := "https", host := "a.com" } } rfl rfl (Or.inr rfl),
   validatePage_mixedContent_upgrade.2.1 { blockAllMixedContent := true } true
      { url := { scheme := "http", host := "a.com", path := "/x.png" },
        page := { scheme := "https", host := "a.com" } } rfl rfl⟩
